import Mathlib

/-!
# AirShare: verification of the chunked-transfer and signaling core

Shallow embedding of the AirShare file-sharing application
(`src/public/js/webrtc/receiver.js`, `sender.js`, `connection.js`,
the CRC32 codec, and `src/server/socket.js`) together with proofs of
the behavioural properties stated in the project specification.

Bytes are modelled as `Nat` values `< 256`, byte buffers as `List Nat`,
JavaScript `Map`s as insertion-ordered association lists, and the
unsigned-32-bit arithmetic of the CRC32 codec as `Nat` arithmetic that
keeps every intermediate value below `2 ^ 32`.
-/

namespace AirShare

/-! ## CRC32 codec

From the repository CRC32 module: table generated from the reflected
IEEE polynomial `0xedb88320`; `calculateCRC32` seeds with `0xffffffff`
(JS `0 ^ (-1)` viewed as u32) and applies the final xor, returning the
unsigned 32-bit value.  `crc >>> 1` is `crc / 2` and `crc & 1` is
`crc % 2` on the u32 bit pattern, so the `Nat` translation is exact. -/

def crcTableEntry (i : Nat) : Nat :=
  (List.range 8).foldl
    (fun crc _ => if crc % 2 = 1 then (crc / 2) ^^^ 0xedb88320 else crc / 2) i

def calculateCRC32 (bytes : List Nat) : Nat :=
  (bytes.foldl
    (fun crc b => (crc / 256) ^^^ crcTableEntry ((crc ^^^ b) % 256))
    0xffffffff) ^^^ 0xffffffff

/-- JS `crc32.toString(16).padStart(8, '0')`: lowercase hex, zero-padded
to eight digits. -/
def crc32ToHex (crc32 : Nat) : String :=
  let ds := Nat.toDigits 16 crc32
  String.mk (List.replicate (8 - ds.length) '0' ++ ds)

/-- The little-endian u32 read from the first four bytes of a buffer
(`new DataView(buffer).getUint32(0, true)`). -/
def leU32Header (buf : List Nat) : Nat :=
  buf.getD 0 0 + 256 * (buf.getD 1 0 + 256 * (buf.getD 2 0 + 256 * buf.getD 3 0))

/-- Little-endian serialization of a u32, used by the sender to build a
framed chunk (`setUint32(0, crc32, true)`). -/
def leU32Bytes (n : Nat) : List Nat :=
  [n % 256, n / 256 % 256, n / 65536 % 256, n / 16777216 % 256]

/-! ## Receive pipeline (`src/public/js/webrtc/receiver.js`) -/

/-- The fields of the metadata JSON frame used by the receiver. -/
structure FileMetadata where
  name : String
  size : Nat
  fileType : String
  lastModified : Nat
  totalChunks : Nat
  chunkSize : Nat
deriving Repr, DecidableEq

/-- A value of the receiver's `chunks` map: `{ data, crc32 }`. -/
structure StoredChunk where
  data : List Nat
  crc32 : Nat
deriving Repr, DecidableEq

/-- JS `Map.set`: replace the binding of an existing key in place,
otherwise append the new binding (JS maps preserve insertion order). -/
def assocSet {α β : Type} [BEq α] : List (α × β) → α → β → List (α × β)
  | [], k, v => [(k, v)]
  | e :: rest, k, v => if e.1 == k then (k, v) :: rest else e :: assocSet rest k v

/-- `manager.receiveState`, together with the bytes pushed to a streaming
sink (`streamWriter.write`) so the streaming branch stays observable. -/
structure ReceiveState where
  fileInfo : Option FileMetadata
  totalChunks : Nat
  chunks : List (Nat × StoredChunk)
  receivedChunks : Nat
  receivedSize : Nat
  useStreaming : Bool
  hasStreamWriter : Bool
  streamWritten : List Nat
  lastValidationError : Option String
deriving Repr, DecidableEq

/-- Fresh `receiveState` before any metadata arrives. -/
def emptyReceiveState : ReceiveState :=
  ⟨none, 0, [], 0, 0, false, false, [], none⟩

/-- `initializeReceiver` / `initializeStreaming`: store the metadata,
reset the counters and the chunk map, and decide in-memory versus
streaming.  The browser file-save picker (`showSaveFilePicker` plus the
user granting it) is modelled by the `savePickerGranted` flag; the
config default `maxInMemorySize || 209715200` is the `maxInMemory`
parameter. -/
def initializeReceiver (maxInMemory : Nat) (savePickerGranted : Bool)
    (s : ReceiveState) (meta : FileMetadata) : ReceiveState :=
  let base := { s with
    fileInfo := some meta
    totalChunks := meta.totalChunks
    chunks := []
    receivedChunks := 0
    receivedSize := 0 }
  if meta.size > maxInMemory then
    if savePickerGranted then { base with useStreaming := true, hasStreamWriter := true }
    else { base with useStreaming := false }
  else { base with useStreaming := false }

/-- Error string built at receiver.js line 87, naming both CRC values in
hex. -/
def integrityErrorMessage (computed received : Nat) : String :=
  "Chunk integrity check failed: expected " ++ crc32ToHex computed ++
    ", got " ++ crc32ToHex received

/-- Observable outcome of `handleChunkData`: the new receive state, the
error surfaced through `ui.showError` (if any), whether
`completeFileReceive` was invoked, and whether the handler closed the
data channel (the source never does). -/
structure RxResult where
  state : ReceiveState
  errorShown : Option String
  completionFired : Bool
  closedChannel : Bool
deriving Repr, DecidableEq

/-- `handleChunkData` (receiver.js lines 76-117): guard on metadata and a
minimum frame length of 4, split off the little-endian CRC header,
verify it against the payload, then either store the chunk under the
current `receivedChunks` index (in-memory path) or append the payload to
the streaming sink, advance both counters, and invoke completion when
`receivedChunks >= totalChunks`. -/
def handleChunkData (s : ReceiveState) (buffer : List Nat) : RxResult :=
  if s.fileInfo.isNone || buffer.length < 4 then ⟨s, none, false, false⟩
  else
    let receivedCrc32 := leU32Header buffer
    let chunkData := buffer.drop 4
    let computedCrc32 := calculateCRC32 chunkData
    if receivedCrc32 ≠ computedCrc32 then
      let err := integrityErrorMessage computedCrc32 receivedCrc32
      ⟨{ s with lastValidationError := some err }, some err, false, false⟩
    else
      let chunkIndex := s.receivedChunks
      let s1 :=
        if s.useStreaming && s.hasStreamWriter then
          { s with streamWritten := s.streamWritten ++ chunkData }
        else
          { s with chunks := assocSet s.chunks chunkIndex ⟨chunkData, receivedCrc32⟩ }
      let s2 := { s1 with
        receivedChunks := s1.receivedChunks + 1
        receivedSize := s1.receivedSize + chunkData.length }
      if s2.totalChunks ≤ s2.receivedChunks then ⟨s2, none, true, false⟩
      else ⟨s2, none, false, false⟩

/-- The assembly loop of `completeFileReceive` (receiver.js lines
128-136): read keys `0 .. count-1` in ascending order from the chunk
map; the first missing key aborts with its index. -/
def collectChunks (m : List (Nat × StoredChunk)) : Nat → Except Nat (List (List Nat))
  | 0 => Except.ok []
  | n + 1 =>
    match collectChunks m n with
    | Except.error i => Except.error i
    | Except.ok acc =>
      match List.lookup n m with
      | none => Except.error n
      | some c => Except.ok (acc ++ [c.data])

/-- Observable outcome of `completeFileReceive`. -/
structure CompleteResult where
  state : ReceiveState
  errorShown : Option String
  downloadOffered : Bool
  transferComplete : Bool
  artifact : Option (List Nat)
deriving Repr, DecidableEq

/-- `completeFileReceive` (receiver.js lines 119-150): close the sink on
the streaming path; otherwise run the assembly loop, surface
"Missing chunk i" and keep the state when a key is absent, and on
success build the artifact, clear the chunk map and offer the
download. -/
def completeFileReceive (s : ReceiveState) : CompleteResult :=
  if s.hasStreamWriter then ⟨s, none, true, true, none⟩
  else
    match collectChunks s.chunks s.receivedChunks with
    | Except.error i => ⟨s, some ("Missing chunk " ++ toString i), false, false, none⟩
    | Except.ok datas =>
      ⟨{ s with chunks := [] }, none, true, true, some datas.flatten⟩

/-- One full receiver step for a binary frame: `handleChunkData`
followed, when it fires, by `completeFileReceive` (receiver.js lines
114-116). -/
structure RunState where
  rx : ReceiveState
  completedEver : Bool
  errors : List String
deriving Repr, DecidableEq

def receiverStep (rs : RunState) (buf : List Nat) : RunState :=
  let r := handleChunkData rs.rx buf
  if r.completionFired then
    let c := completeFileReceive r.state
    { rx := c.state
      completedEver := true
      errors := rs.errors ++ r.errorShown.toList ++ c.errorShown.toList }
  else
    { rs with rx := r.state, errors := rs.errors ++ r.errorShown.toList }

/-- The whole receive pipeline for one transfer: process the metadata
frame, then every binary frame in arrival order. -/
def runReceiver (maxInMemory : Nat) (savePickerGranted : Bool)
    (meta : FileMetadata) (frames : List (List Nat)) : RunState :=
  frames.foldl receiverStep
    { rx := initializeReceiver maxInMemory savePickerGranted emptyReceiveState meta
      completedEver := false
      errors := [] }

/-- The ingest portion of processing a frame sequence (receiver.js lines
76-112), before any completion side effects. -/
def ingestState (s : ReceiveState) (frames : List (List Nat)) : ReceiveState :=
  frames.foldl (fun st buf => (handleChunkData st buf).state) s

/-- The keys of the in-memory chunk map, in insertion order. -/
def chunkKeys (s : ReceiveState) : List Nat :=
  s.chunks.map Prod.fst

/-! ## Send pipeline (`src/public/js/webrtc/sender.js`) -/

/-- `TARGET_BUFFER`: `Math.max(131072, Math.floor(highWater / 2))`
(sender.js line 87). -/
def targetBufferOf (highWater : Nat) : Nat :=
  max 131072 (highWater / 2)

/-- The adaptive rules applied at each batch boundary (sender.js lines
139-151).  `Math.floor(targetBuffer * 0.25)` is exact in IEEE doubles
(multiplication by a power of two), hence `targetBuffer / 4`;
`Math.floor(currentBatchSize * 0.7)` agrees with `batchSize * 7 / 10`
for every batch size the loop can reach (`0 ≤ batchSize ≤ 20`; the two
first differ at 90). -/
def adaptBatch (targetBuffer bufferedAmount batchSize yieldTimeMs : Nat) : Nat × Nat :=
  if bufferedAmount < targetBuffer / 4 then
    if batchSize < 20 then (min 20 (batchSize + 2), max 10 (yieldTimeMs - 5))
    else (batchSize, yieldTimeMs)
  else if bufferedAmount > targetBuffer then
    if batchSize > 1 then (max 1 (batchSize * 7 / 10), min 200 (yieldTimeMs + 20))
    else (batchSize, yieldTimeMs)
  else (batchSize, yieldTimeMs)

/-- Initial loop parameters: `manager.sendState.batchSize || 1` and
`manager.sendState.yieldTimeMs || 50` (sender.js lines 89-90). -/
def initialBatchSize : Nat := 1

def initialYieldTimeMs : Nat := 50

/-- What the environment does around one iteration of the send loop:
how many buffered bytes the transport drained before the loop reads
`bufferedAmount` at the top of the iteration, whether the channel is
still open at the send, and the drain before the batch-boundary read of
`bufferedAmount`.  Drains only ever lower `bufferedAmount`, so placing
them at the two points where the loop observes it over-approximates the
real buffer. -/
structure EnvStep where
  drainTop : Nat
  channelOpen : Bool
  drainBatch : Nat
deriving Repr, DecidableEq

/-- The mutable state of `continueSendFile`: `sendState.offset`, the
channel's `bufferedAmount`, `sendState.paused`, and the loop-local
`currentBatchSize`, `yieldTimeMs` and `chunksSentThisBatch`. -/
structure SendSt where
  offset : Nat
  buffered : Nat
  paused : Bool
  batchSize : Nat
  yieldTimeMs : Nat
  chunksSentThisBatch : Nat
deriving Repr, DecidableEq

/-- One `dataChannel.send(chunkWithCrc.buffer)` call: the
`bufferedAmount` the loop observed at the top of the iteration and the
length of the framed chunk (payload plus the 4-byte CRC header). -/
structure SendEvent where
  preBuffered : Nat
  framedLen : Nat
deriving Repr, DecidableEq

/-- The `while` loop of `continueSendFile` (sender.js lines 93-155).
Each iteration consumes one `EnvStep`; the run ends when the file is
exhausted, when the loop pauses on backpressure (`bufferedAmount >
highWater` sets `paused` and returns at once), when the channel is found
closed, or when the modelled environment trace runs out.  Returns the
final state and the trace of sends. -/
def continueSendLoop (fileSize chunkSize highWater : Nat) :
    SendSt → List EnvStep → SendSt × List SendEvent
  | st, [] => (st, [])
  | st, e :: env =>
    if st.offset < fileSize then
      let buffered := st.buffered - e.drainTop
      if highWater < buffered then
        ({ st with buffered := buffered, paused := true }, [])
      else if e.channelOpen = false then
        ({ st with buffered := buffered }, [])
      else
        let endPos := min (st.offset + chunkSize) fileSize
        let payloadLen := endPos - st.offset
        let framed := payloadLen + 4
        let buffered2 := buffered + framed
        let offset2 := st.offset + payloadLen
        let sent := st.chunksSentThisBatch + 1
        if st.batchSize ≤ sent then
          let bufferedB := buffered2 - e.drainBatch
          let bt := adaptBatch (targetBufferOf highWater) bufferedB st.batchSize st.yieldTimeMs
          let st2 : SendSt :=
            ⟨offset2, bufferedB, st.paused, bt.1, bt.2, 0⟩
          let rest := continueSendLoop fileSize chunkSize highWater st2 env
          (rest.1, ⟨buffered, framed⟩ :: rest.2)
        else
          let st2 : SendSt :=
            { st with offset := offset2, buffered := buffered2, chunksSentThisBatch := sent }
          let rest := continueSendLoop fileSize chunkSize highWater st2 env
          (rest.1, ⟨buffered, framed⟩ :: rest.2)
    else (st, [])

/-- The `onbufferedamountlow` handler (connection.js lines 256-264): it
re-enters `continueSendFile`, clearing `paused`, iff the loop is paused,
a file is set, and the offset has not reached the file size; otherwise
it does nothing. -/
def onBufferedAmountLow (hasFile : Bool) (fileSize : Nat) (st : SendSt) : Option SendSt :=
  if st.paused && hasFile && decide (st.offset < fileSize) then
    some { st with paused := false }
  else none

/-! ## Signaling server (`src/server/socket.js`) -/

abbrev PeerId := String
abbrev RoomId := String

def RATE_LIMIT_WINDOW : Nat := 1000

def RATE_LIMIT_MAX : Nat := 10

/-- `^[a-zA-Z0-9_-]{1,64}$` on a string value (socket.js lines 16-20),
checked over the string's characters.  Non-string room ids are handled
where the check is called. -/
def isValidRoomId (s : String) : Bool :=
  1 ≤ s.length && s.length ≤ 64 &&
    s.data.all (fun c => c.isAlphanum || c == '_' || c == '-')

/-- One entry of `socketRateLimits`. -/
structure RateEntry where
  count : Nat
  resetTime : Nat
deriving Repr, DecidableEq

/-- The body of `checkRateLimit` (socket.js lines 27-48) for one
socket's entry: fresh or expired windows reset to
`count = 1, resetTime = now + RATE_LIMIT_WINDOW`; a saturated window
rejects; otherwise the count is incremented. -/
def rlStep (entry : Option RateEntry) (now : Nat) : Bool × RateEntry :=
  match entry with
  | none => (true, ⟨1, now + RATE_LIMIT_WINDOW⟩)
  | some limit =>
    if limit.resetTime < now then (true, ⟨1, now + RATE_LIMIT_WINDOW⟩)
    else if RATE_LIMIT_MAX ≤ limit.count then (false, limit)
    else (true, ⟨limit.count + 1, limit.resetTime⟩)

/-- `checkRateLimit` over the whole `socketRateLimits` map. -/
def checkRateLimit (limits : List (PeerId × RateEntry)) (socketId : PeerId) (now : Nat) :
    Bool × List (PeerId × RateEntry) :=
  let r := rlStep (List.lookup socketId limits) now
  (r.1, if r.1 then assocSet limits socketId r.2 else limits)

/-- The sequence of accept/reject decisions the limiter makes for one
socket's chronological event times. -/
def rlRun : Option RateEntry → List Nat → List (Nat × Bool)
  | _, [] => []
  | entry, t :: ts =>
    let r := rlStep entry t
    (t, r.1) :: rlRun (some r.2) ts

/-- How many events the limiter accepts in the remainder of the current
limiter window: events are fed to `rlStep` until one arrives past
`resetTime` (which would open a new window). -/
def windowAccepted (entry : RateEntry) : List Nat → Nat
  | [] => 0
  | t :: ts =>
    if entry.resetTime < t then 0
    else
      let r := rlStep (some entry) t
      (if r.1 then 1 else 0) + windowAccepted r.2 ts

/-- Number of accepted events whose time falls in the real-time window
`[lo, lo + RATE_LIMIT_WINDOW)`. -/
def acceptedIn (lo : Nat) (evs : List (Nat × Bool)) : Nat :=
  (evs.filter (fun p => p.2 && decide (lo ≤ p.1) && decide (p.1 < lo + RATE_LIMIT_WINDOW))).length

/-- A room registry entry (socket.js line 5): creation instant plus the
peer set, modelled as a duplicate-free list. -/
structure Room where
  createdAt : Nat
  peers : List PeerId
deriving Repr, DecidableEq

/-- The signaling server's state: `roomRegistry`, `pendingJoinRequests`,
`socketRateLimits`, and the set of live sockets (`io.sockets.sockets`).
Socket.io's per-socket room membership is kept in lock step with the
registry by the handlers, so membership is modelled once, in the
registry. -/
structure ServerState where
  rooms : List (RoomId × Room)
  pending : List (PeerId × RoomId)
  rateLimits : List (PeerId × RateEntry)
  connected : List PeerId
deriving Repr, DecidableEq

/-- Server-side configuration knobs used by socket.js. -/
structure ServerConfig where
  maxPeersPerRoom : Nat
  maxSignalPayloadBytes : Nat
  roomTtlMs : Nat
deriving Repr, DecidableEq

/-- Everything socket.js emits, tagged with the destination socket. -/
inductive SignalKind where
  | offer
  | answer
  | candidate
deriving Repr, DecidableEq

/-- The `roomId` field of a relayed payload, before extraction: a
string, an object whose truthy `roomId` member unwraps to a string
(socket.js lines 308-311), or some other value that fails the
string-typed regex test. -/
inductive RoomIdExpr where
  | str (s : String)
  | objWithRoomId (s : String)
  | otherVal
deriving Repr, DecidableEq

/-- A relayed signal payload: its (possibly missing) `roomId` field and
its serialized JSON length (`none` models `JSON.stringify` throwing,
which `isPayloadValid` turns into a rejection). -/
structure SignalData where
  roomIdField : Option RoomIdExpr
  payloadLen : Option Nat
deriving Repr, DecidableEq

/-- `isPayloadValid` (socket.js lines 51-58). -/
def isPayloadValid (cfg : ServerConfig) (d : SignalData) : Bool :=
  match d.payloadLen with
  | some n => n ≤ cfg.maxSignalPayloadBytes
  | none => false

/-- The `roomId` extraction of the relay handler. -/
def extractRoomId : Option RoomIdExpr → Option String
  | some (RoomIdExpr.str s) => some s
  | some (RoomIdExpr.objWithRoomId s) => some s
  | some RoomIdExpr.otherVal => none
  | none => none

inductive Emit where
  | appError (target : PeerId) (message : String)
  | roomCreated (target : PeerId) (roomId : RoomId)
  | roomJoined (target : PeerId) (roomId : RoomId)
  | roomNotFound (target : PeerId) (roomId : RoomId)
  | joinRequested (target : PeerId) (roomId : RoomId)
  | peerJoinRequest (target : PeerId) (peerId : PeerId) (roomId : RoomId)
  | peerJoined (target : PeerId) (peerId : PeerId) (roomId : RoomId)
  | peerRejectedNote (target : PeerId) (roomId : RoomId) (peerId : PeerId)
  | signal (target : PeerId) (kind : SignalKind) (data : SignalData) (fromPeer : PeerId)
deriving Repr, DecidableEq

/-- The peers of a room per the registry (empty for unknown rooms). -/
def roomPeers (s : ServerState) (roomId : RoomId) : List PeerId :=
  match List.lookup roomId s.rooms with
  | some r => r.peers
  | none => []

/-- `inRoom(socket, roomId)` (socket.js lines 22-24): socket.io's
`socket.rooms.has(roomId)`, which the handlers keep identical to
registry membership for every registry room. -/
def inRoom (s : ServerState) (p : PeerId) (roomId : RoomId) : Bool :=
  (roomPeers s roomId).contains p

/-- `Set.add` on a room's peer set. -/
def addPeer (r : Room) (p : PeerId) : Room :=
  if r.peers.contains p then r else { r with peers := r.peers ++ [p] }

/-- `Set.delete` on a room's peer set. -/
def removePeer (r : Room) (p : PeerId) : Room :=
  { r with peers := r.peers.filter (fun q => q ≠ p) }

/-- Update the registry entry of one room (JS `Map` mutation through the
object reference obtained by `get`). -/
def updateRoom : List (RoomId × Room) → RoomId → (Room → Room) → List (RoomId × Room)
  | [], _, _ => []
  | e :: rest, roomId, f =>
    if e.1 == roomId then (e.1, f e.2) :: rest else e :: updateRoom rest roomId f

/-- The generic `relay(eventName)` handler for `offer`, `answer` and
`candidate` (socket.js lines 289-342): payload-size guard, then the rate
limiter (skipped for the data-heavy `offer`/`answer`), then `roomId`
extraction and validation, then the membership check, and finally the
relay of the payload, augmented with `from`, to every other member of
the room (`socket.to(roomId).emit` excludes the sender). -/
def relayHandler (cfg : ServerConfig) (s : ServerState) (sender : PeerId)
    (kind : SignalKind) (data : SignalData) (now : Nat) : ServerState × List Emit :=
  if !(isPayloadValid cfg data) then
    (s, [Emit.appError sender "Payload too large"])
  else
    let isDataHeavy := kind == SignalKind.offer || kind == SignalKind.answer
    let rate := if isDataHeavy then (true, s.rateLimits) else checkRateLimit s.rateLimits sender now
    if !rate.1 then
      (s, [Emit.appError sender "Too many requests"])
    else
      let s1 := { s with rateLimits := rate.2 }
      match extractRoomId data.roomIdField with
      | none => (s1, [Emit.appError sender "Invalid room ID"])
      | some roomId =>
        if !(isValidRoomId roomId) then
          (s1, [Emit.appError sender "Invalid room ID"])
        else if !(inRoom s1 sender roomId) then
          (s1, [Emit.appError sender "Not a member of this room"])
        else
          (s1, ((roomPeers s1 roomId).filter (fun p => p ≠ sender)).map
            (fun p => Emit.signal p kind data sender))

/-- Every socket.js event the server reacts to. -/
inductive ServerOp where
  | connect (peer : PeerId)
  | createRoom (sender : PeerId) (roomId : String) (now : Nat)
  | joinRoom (sender : PeerId) (roomId : String) (now : Nat)
  | requestJoin (sender : PeerId) (roomId : String) (now : Nat)
  | peerAccepted (sender : PeerId) (roomId : String) (peerId : PeerId) (now : Nat)
  | peerRejected (sender : PeerId) (roomId : String) (peerId : PeerId) (now : Nat)
  | signalEvent (sender : PeerId) (kind : SignalKind) (data : SignalData) (now : Nat)
  | disconnect (peer : PeerId)
  | sweep (now : Nat)
deriving Repr, DecidableEq

/-- The `create-room` handler (socket.js lines 74-107). -/
def createRoomHandler (s : ServerState) (sender : PeerId) (roomId : String) (now : Nat) :
    ServerState × List Emit :=
  let rate := checkRateLimit s.rateLimits sender now
  if !rate.1 then (s, [Emit.appError sender "Too many requests"])
  else
    let s1 := { s with rateLimits := rate.2 }
    if !(isValidRoomId roomId) then (s1, [Emit.appError sender "Invalid room ID"])
    else if (List.lookup roomId s1.rooms).isSome then
      (s1, [Emit.appError sender "Room already exists"])
    else
      ({ s1 with rooms := s1.rooms ++ [(roomId, ⟨now, [sender]⟩)] },
       [Emit.roomCreated sender roomId])

/-- The `join-room` handler (socket.js lines 109-149): capacity is
enforced before the peer set is touched. -/
def joinRoomHandler (cfg : ServerConfig) (s : ServerState) (sender : PeerId)
    (roomId : String) (now : Nat) : ServerState × List Emit :=
  let rate := checkRateLimit s.rateLimits sender now
  if !rate.1 then (s, [Emit.appError sender "Too many requests"])
  else
    let s1 := { s with rateLimits := rate.2 }
    if !(isValidRoomId roomId) then (s1, [Emit.appError sender "Invalid room ID"])
    else
      match List.lookup roomId s1.rooms with
      | none => (s1, [Emit.roomNotFound sender roomId])
      | some roomInfo =>
        if cfg.maxPeersPerRoom ≤ roomInfo.peers.length then
          (s1, [Emit.appError sender "Room is full"])
        else
          let s2 := { s1 with rooms := updateRoom s1.rooms roomId (fun r => addPeer r sender) }
          (s2, ((roomPeers s2 roomId).filter (fun p => p ≠ sender)).map
              (fun p => Emit.peerJoined p sender roomId)
            ++ [Emit.roomJoined sender roomId])

/-- The `request-join` handler (socket.js lines 152-189): it never
touches the peer set; the requester only lands in `pendingJoinRequests`. -/
def requestJoinHandler (s : ServerState) (sender : PeerId) (roomId : String) (now : Nat) :
    ServerState × List Emit :=
  let rate := checkRateLimit s.rateLimits sender now
  if !rate.1 then (s, [Emit.appError sender "Too many requests"])
  else
    let s1 := { s with rateLimits := rate.2 }
    if !(isValidRoomId roomId) then (s1, [Emit.appError sender "Invalid room ID"])
    else if (List.lookup roomId s1.rooms).isNone then (s1, [Emit.roomNotFound sender roomId])
    else if inRoom s1 sender roomId then (s1, [Emit.roomJoined sender roomId])
    else
      let s2 := { s1 with pending := assocSet s1.pending sender roomId }
      (s2, ((roomPeers s2 roomId).filter (fun p => p ≠ sender)).map
          (fun p => Emit.peerJoinRequest p sender roomId)
        ++ [Emit.joinRequested sender roomId])

/-- The `peer-accepted` handler (socket.js lines 192-249): approval is
only honoured from a room member for a matching pending request, and a
full room refuses with an `app-error` to the pending peer and the
approver, leaving every data structure unchanged. -/
def peerAcceptedHandler (cfg : ServerConfig) (s : ServerState) (sender : PeerId)
    (roomId : String) (peerId : PeerId) (now : Nat) : ServerState × List Emit :=
  let rate := checkRateLimit s.rateLimits sender now
  if !rate.1 then (s, [Emit.appError sender "Too many requests"])
  else
    let s1 := { s with rateLimits := rate.2 }
    if !(isValidRoomId roomId) then (s1, [Emit.appError sender "Invalid accept payload"])
    else if !(inRoom s1 sender roomId) then
      (s1, [Emit.appError sender "Not a member of this room"])
    else
      match List.lookup roomId s1.rooms with
      | none => (s1, [Emit.roomNotFound sender roomId])
      | some roomInfo =>
        if List.lookup peerId s1.pending ≠ some roomId then
          (s1, [Emit.appError sender "No pending request for this peer"])
        else if !(s1.connected.contains peerId) then
          ({ s1 with pending := s1.pending.filter (fun e => e.1 ≠ peerId) },
           [Emit.appError sender "Peer disconnected"])
        else if cfg.maxPeersPerRoom ≤ roomInfo.peers.length then
          (s1, [Emit.appError peerId "Room is full", Emit.appError sender "Room is full"])
        else
          let s2 := { s1 with
            pending := s1.pending.filter (fun e => e.1 ≠ peerId)
            rooms := updateRoom s1.rooms roomId (fun r => addPeer r peerId) }
          (s2, (roomPeers s2 roomId).map (fun p => Emit.peerJoined p peerId roomId)
            ++ [Emit.roomJoined peerId roomId])

/-- The `peer-rejected` handler (socket.js lines 252-286). -/
def peerRejectedHandler (s : ServerState) (sender : PeerId) (roomId : String)
    (peerId : PeerId) (now : Nat) : ServerState × List Emit :=
  let rate := checkRateLimit s.rateLimits sender now
  if !rate.1 then (s, [Emit.appError sender "Too many requests"])
  else
    let s1 := { s with rateLimits := rate.2 }
    if !(isValidRoomId roomId) then (s1, [Emit.appError sender "Invalid reject payload"])
    else if !(inRoom s1 sender roomId) then
      (s1, [Emit.appError sender "Not a member of this room"])
    else if List.lookup peerId s1.pending ≠ some roomId then (s1, [])
    else
      let s2 := { s1 with pending := s1.pending.filter (fun e => e.1 ≠ peerId) }
      (s2, if s2.connected.contains peerId
        then [Emit.peerRejectedNote peerId roomId peerId] else [])

/-- The `disconnect` handler (socket.js lines 348-361) plus socket.io's
removal of the socket itself. -/
def disconnectHandler (s : ServerState) (peer : PeerId) : ServerState × List Emit :=
  ({ rooms := (s.rooms.map (fun e => (e.1, removePeer e.2 peer))).filter
        (fun e => e.2.peers.length ≠ 0)
     pending := s.pending.filter (fun e => e.1 ≠ peer)
     rateLimits := s.rateLimits.filter (fun e => e.1 ≠ peer)
     connected := s.connected.filter (fun q => q ≠ peer) }, [])

/-- The room-TTL sweep (socket.js lines 61-68). -/
def sweepHandler (cfg : ServerConfig) (s : ServerState) (now : Nat) : ServerState × List Emit :=
  ({ s with rooms := s.rooms.filter (fun e => !(cfg.roomTtlMs < now - e.2.createdAt)) }, [])

/-- Dispatch of one socket.js event. -/
def serverStep (cfg : ServerConfig) (s : ServerState) : ServerOp → ServerState × List Emit
  | ServerOp.connect p => ({ s with connected := s.connected ++ [p] }, [])
  | ServerOp.createRoom sender roomId now => createRoomHandler s sender roomId now
  | ServerOp.joinRoom sender roomId now => joinRoomHandler cfg s sender roomId now
  | ServerOp.requestJoin sender roomId now => requestJoinHandler s sender roomId now
  | ServerOp.peerAccepted sender roomId peerId now =>
    peerAcceptedHandler cfg s sender roomId peerId now
  | ServerOp.peerRejected sender roomId peerId now =>
    peerRejectedHandler s sender roomId peerId now
  | ServerOp.signalEvent sender kind data now => relayHandler cfg s sender kind data now
  | ServerOp.disconnect p => disconnectHandler s p
  | ServerOp.sweep now => sweepHandler cfg s now

/-- The capacity invariant of the registry. -/
def roomsBounded (cfg : ServerConfig) (s : ServerState) : Prop :=
  ∀ e ∈ s.rooms, e.2.peers.length ≤ cfg.maxPeersPerRoom

/-! ## Peer connection controller (`src/public/js/webrtc/connection.js`) -/

/-- The lifecycle flags consulted by the failure handlers. -/
structure Lifecycle where
  intentionalClose : Bool
  transferComplete : Bool
  everConnected : Bool
  restartingForPeer : Bool
deriving Repr, DecidableEq

/-- The slice of the manager the two failure handlers read. -/
structure CtrlState where
  lifecycle : Lifecycle
  isInitiator : Bool
  roomId : String
  pendingFile : Option String
deriving Repr, DecidableEq

/-- A scheduled `restartTimer`: delay plus the captured room and file
(connection.js lines 116-129 and 280-293). -/
structure RestartRequest where
  delayMs : Nat
  savedRoomId : String
  savedFile : Option String
deriving Repr, DecidableEq

/-- The observable outcome of a failure handler. -/
structure HandlerResult where
  statusUpdate : Option String
  errorShown : Option String
  restart : Option RestartRequest
  lifecycle : Lifecycle
deriving Repr, DecidableEq

def connectionFailedDialog : String :=
  "Connection failed: Unable to establish peer connection.\n\nTroubleshooting:\n• Check firewall/NAT settings\n• Try disabling VPN\n• Check if both devices are online\n• Allow pop-ups for camera/microphone (if prompted)"

/-- The `failed` branch of `onconnectionstatechange` (connection.js
lines 100-135): bail out silently on an intentional close or a finished
transfer, treat a failure after a successful connection as the peer
leaving (scheduling the 250 ms restart when this side is the initiator
and no restart is in flight), and only otherwise surface the failure
dialog. -/
def onConnectionFailed (c : CtrlState) : HandlerResult :=
  if c.lifecycle.intentionalClose || c.lifecycle.transferComplete then
    ⟨none, none, none, c.lifecycle⟩
  else if c.lifecycle.everConnected then
    if c.isInitiator && !c.lifecycle.restartingForPeer then
      ⟨some "Peer disconnected", none, some ⟨250, c.roomId, c.pendingFile⟩,
        { c.lifecycle with restartingForPeer := true }⟩
    else ⟨some "Peer disconnected", none, none, c.lifecycle⟩
  else ⟨none, some connectionFailedDialog, none, c.lifecycle⟩

/-- The data-channel `onclose` handler (connection.js lines 266-295):
always updates the status, and schedules the 250 ms restart iff this
side is the initiator, the connection had been established, the transfer
is not complete and no restart is already in flight. -/
def onChannelClose (c : CtrlState) : HandlerResult :=
  if c.isInitiator && c.lifecycle.everConnected && !c.lifecycle.transferComplete
      && !c.lifecycle.restartingForPeer then
    ⟨some "Connection closed", none, some ⟨250, c.roomId, c.pendingFile⟩,
      { c.lifecycle with restartingForPeer := true }⟩
  else ⟨some "Connection closed", none, none, c.lifecycle⟩

/-- What the restart timer's callback does when it fires (connection.js
lines 118-129 / 282-293): tear the connection down, re-create it as
initiator for the captured room with the captured file, set the status,
and clear the re-entry guard. -/
structure TimerRun where
  didReset : Bool
  setupRoomId : String
  setupIsInitiator : Bool
  setupFile : Option String
  statusUpdate : Option String
  restartingForPeerAfter : Bool
deriving Repr, DecidableEq

def runRestartTimer (req : RestartRequest) : TimerRun :=
  ⟨true, req.savedRoomId, true, req.savedFile, some "Waiting for peer...", false⟩

/-! ## Concrete inputs used by witnesses and counterexamples -/

def c1Meta : FileMetadata := ⟨"ab.bin", 4, "application/octet-stream", 0, 1, 131072⟩

def c1Frame : List Nat := leU32Bytes (calculateCRC32 [97, 98]) ++ [97, 98]

def c1ZeroMeta : FileMetadata := ⟨"empty.bin", 0, "", 0, 0, 131072⟩

def c2Meta : FileMetadata := ⟨"x.bin", 600000, "", 0, 5, 131072⟩

def c2State : ReceiveState := { emptyReceiveState with fileInfo := some c2Meta, totalChunks := 5 }

def c2BadFrame : List Nat := [1, 0, 0, 0]

def c2GoodFrame : List Nat := leU32Bytes (calculateCRC32 [5]) ++ [5]

def c9State : ReceiveState := { emptyReceiveState with fileInfo := some c2Meta, totalChunks := 5 }

def c9ShortFrame : List Nat := [0, 0, 0, 0]

def c10Meta : FileMetadata := ⟨"w.bin", 1, "", 0, 1, 131072⟩

def c10Frame : List Nat := leU32Bytes (calculateCRC32 [7]) ++ [7]

def c7Times : List Nat :=
  [0, 601, 602, 603, 604, 605, 606, 607, 608, 609,
   1001, 1002, 1003, 1004, 1005, 1006, 1007, 1008, 1009, 1010]

def c6State : CtrlState := ⟨⟨true, false, true, false⟩, true, "room1", some "f.bin"⟩

def c6OkState : CtrlState := ⟨⟨false, false, true, false⟩, true, "room1", some "f.bin"⟩

def defaultServerConfig : ServerConfig := ⟨2, 65536, 1800000⟩

def c5Room : Room := ⟨0, ["alice", "bob"]⟩

def c5State : ServerState :=
  ⟨[("room1", c5Room)], [("carol", "room1")], [], ["alice", "bob", "carol"]⟩

def c4Data : SignalData := ⟨some (RoomIdExpr.str "room1"), some 100⟩

/-! ## Helper lemmas about the receive pipeline -/

/-- Frames are dropped with no effect at all when no metadata has been
received or the frame is shorter than the 4-byte CRC header. -/
lemma handleChunkData_guard (s : ReceiveState) (buf : List Nat)
    (h : s.fileInfo = none ∨ buf.length < 4) :
    handleChunkData s buf = ⟨s, none, false, false⟩ := by
  have hc : (s.fileInfo.isNone || decide (buf.length < 4)) = true := by
    rcases h with h | h
    · simp [h]
    · simp [h]
  simp [handleChunkData, hc]

/-- A frame whose CRC header disagrees with its payload only records and
surfaces the integrity error. -/
lemma handleChunkData_mismatch (s : ReceiveState) (buf : List Nat)
    (h1 : s.fileInfo.isSome = true) (h2 : 4 ≤ buf.length)
    (h3 : leU32Header buf ≠ calculateCRC32 (buf.drop 4)) :
    handleChunkData s buf =
      ⟨{ s with lastValidationError := some (integrityErrorMessage (calculateCRC32 (buf.drop 4)) (leU32Header buf)) },
        some (integrityErrorMessage (calculateCRC32 (buf.drop 4)) (leU32Header buf)),
        false, false⟩ := by
  obtain ⟨m, hm⟩ := Option.isSome_iff_exists.mp h1
  have hlen : ¬ buf.length < 4 := by omega
  simp [handleChunkData, hm, hlen, h3]

/-- A frame whose CRC header matches its payload advances both counters
and surfaces nothing; completion fires exactly when the chunk count
reaches `totalChunks`. -/
lemma handleChunkData_good (s : ReceiveState) (buf : List Nat)
    (h1 : s.fileInfo.isSome = true) (h2 : 4 ≤ buf.length)
    (h3 : leU32Header buf = calculateCRC32 (buf.drop 4)) :
    (handleChunkData s buf).state.receivedChunks = s.receivedChunks + 1 ∧
    (handleChunkData s buf).state.receivedSize = s.receivedSize + (buf.length - 4) ∧
    (handleChunkData s buf).state.totalChunks = s.totalChunks ∧
    (handleChunkData s buf).errorShown = none ∧
    (handleChunkData s buf).closedChannel = false ∧
    ((handleChunkData s buf).completionFired = true ↔ s.totalChunks ≤ s.receivedChunks + 1) := by
  obtain ⟨m, hm⟩ := Option.isSome_iff_exists.mp h1
  have hlen : ¬ buf.length < 4 := by omega
  have hguard : (s.fileInfo.isNone || decide (buf.length < 4)) = false := by
    simp [hm, hlen]
  simp only [handleChunkData, hguard, Bool.false_eq_true, if_false, h3, ne_eq,
    not_true_eq_false, List.length_drop]
  split <;> split <;> simp_all

lemma assocSet_keys {α β : Type} [BEq α] [LawfulBEq α] (m : List (α × β)) (k : α) (v : β)
    (h : k ∉ m.map Prod.fst) :
    (assocSet m k v).map Prod.fst = m.map Prod.fst ++ [k] := by
  induction m with
  | nil => simp [assocSet]
  | cons e rest ih =>
    simp only [List.map_cons, List.mem_cons, not_or] at h
    have hne : (e.1 == k) = false := by
      simp only [beq_eq_false_iff_ne, ne_eq]
      exact fun hh => h.1 hh.symm
    simp [assocSet, hne, ih h.2]

lemma lookup_isSome_of_mem_keys {α β : Type} [BEq α] [LawfulBEq α] (m : List (α × β)) (k : α)
    (h : k ∈ m.map Prod.fst) : (List.lookup k m).isSome = true := by
  induction m with
  | nil => simp at h
  | cons e rest ih =>
    simp only [List.map_cons, List.mem_cons] at h
    by_cases hk : (k == e.1) = true
    · simp [List.lookup, hk]
    · rcases h with h | h
      · exact absurd (by simp [h]) hk
      · simp [List.lookup, hk, ih h]

lemma collectChunks_ok (m : List (Nat × StoredChunk)) :
    ∀ n, (∀ i, i < n → (List.lookup i m).isSome = true) →
      (collectChunks m n).toOption.isSome = true := by
  intro n
  induction n with
  | zero => intro _; simp [collectChunks, Except.toOption]
  | succ n ih =>
    intro h
    obtain ⟨c, hc⟩ := Option.isSome_iff_exists.mp (h n (Nat.lt_succ_self n))
    have ihh := ih (fun i hi => h i (Nat.lt_succ_of_lt hi))
    cases hcol : collectChunks m n with
    | error i => rw [hcol] at ihh; simp [Except.toOption] at ihh
    | ok acc => simp [collectChunks, hcol, hc, Except.toOption]

/-- One ingest step preserves the in-memory invariant: the keys of the
chunk map are exactly `0 .. receivedChunks - 1`. -/
lemma handleChunkData_inv (s : ReceiveState) (buf : List Nat)
    (h1 : s.useStreaming = false)
    (h2 : chunkKeys s = List.range s.receivedChunks) :
    (handleChunkData s buf).state.useStreaming = false ∧
    chunkKeys (handleChunkData s buf).state =
      List.range (handleChunkData s buf).state.receivedChunks := by
  by_cases hg : s.fileInfo = none ∨ buf.length < 4
  · rw [handleChunkData_guard s buf hg]
    exact ⟨h1, h2⟩
  · push_neg at hg
    have hsome : s.fileInfo.isSome = true := Option.ne_none_iff_isSome.mp hg.1
    have hlen : 4 ≤ buf.length := by omega
    by_cases h3 : leU32Header buf = calculateCRC32 (buf.drop 4)
    · obtain ⟨m, hm⟩ := Option.isSome_iff_exists.mp hsome
      have hguard : (s.fileInfo.isNone || decide (buf.length < 4)) = false := by
        simp [hm]; omega
      have hnot : s.receivedChunks ∉ s.chunks.map Prod.fst := by
        have : s.chunks.map Prod.fst = List.range s.receivedChunks := h2
        rw [this]
        simp [List.mem_range]
      have h2m : List.map Prod.fst s.chunks = List.range s.receivedChunks := h2
      simp only [handleChunkData, hguard, Bool.false_eq_true, if_false, h3, ne_eq,
        not_true_eq_false, h1, Bool.false_and]
      split <;>
        simp [chunkKeys, assocSet_keys s.chunks s.receivedChunks _ hnot, h2m,
          List.range_succ]
    · rw [handleChunkData_mismatch s buf hsome hlen h3]
      exact ⟨h1, h2⟩

/-- The in-memory invariant over a whole frame sequence. -/
lemma ingest_inv (frames : List (List Nat)) :
    ∀ s : ReceiveState, s.useStreaming = false →
      chunkKeys s = List.range s.receivedChunks →
      (ingestState s frames).useStreaming = false ∧
      chunkKeys (ingestState s frames) =
        List.range (ingestState s frames).receivedChunks := by
  induction frames with
  | nil => intro s h1 h2; exact ⟨h1, h2⟩
  | cons b fs ih =>
    intro s h1 h2
    have hstep := handleChunkData_inv s b h1 h2
    exact ih _ hstep.1 hstep.2

/-! ## Claim theorems: receive pipeline -/

/-- C1 (counterexample): completion is not gated by the byte count.  For
a zero-byte file the metadata arrives, no chunk frame is sent, and
`received_bytes == 0 == size` holds, yet completion never fires; and for
a 4-byte file a single valid 2-byte-payload frame fires completion even
though `received_bytes = 2 ≠ 4 = size`. -/
theorem completion_not_by_bytes_counterexample :
    (runReceiver 209715200 false c1ZeroMeta []).completedEver = false ∧
    (runReceiver 209715200 false c1Meta [c1Frame]).completedEver = true ∧
    (runReceiver 209715200 false c1Meta [c1Frame]).rx.receivedSize = 2 ∧
    c1Meta.size = 4 := by decide

/-- C1 (amended): the receive pipeline checks only the chunk-count
condition.  Completion fires on a frame exactly when the frame is
ingested (metadata set, at least 4 bytes, CRC match) and the incremented
chunk count reaches `meta.total_chunks`; `received_bytes` is never
consulted, and with no chunk frames (in particular for a zero-byte
file) completion never fires. -/
theorem completion_gated_by_chunk_count :
    (∀ (s : ReceiveState) (buf : List Nat),
      (handleChunkData s buf).completionFired = true ↔
        (s.fileInfo.isSome = true ∧ 4 ≤ buf.length ∧
          leU32Header buf = calculateCRC32 (buf.drop 4) ∧
          s.totalChunks ≤ s.receivedChunks + 1)) ∧
    (∀ (maxInMemory : Nat) (picker : Bool) (meta : FileMetadata),
      (runReceiver maxInMemory picker meta []).completedEver = false) := by
  constructor
  · intro s buf
    by_cases hg : s.fileInfo = none ∨ buf.length < 4
    · rw [handleChunkData_guard s buf hg]
      constructor
      · intro h; exact absurd h (by simp)
      · rintro ⟨ha, hb, -, -⟩
        rcases hg with hg | hg
        · rw [hg] at ha; simp at ha
        · omega
    · push_neg at hg
      have hsome : s.fileInfo.isSome = true := Option.ne_none_iff_isSome.mp hg.1
      have hlen : 4 ≤ buf.length := by omega
      by_cases h3 : leU32Header buf = calculateCRC32 (buf.drop 4)
      · have hgood := handleChunkData_good s buf hsome hlen h3
        rw [hgood.2.2.2.2.2]
        simp [hsome, hlen, h3]
      · rw [handleChunkData_mismatch s buf hsome hlen h3]
        simp [h3]
  · intro maxInMemory picker meta; rfl

/-- C2: a frame whose leading little-endian u32 disagrees with the CRC32
of its payload surfaces an integrity error naming both CRC values in
hex, stores it in `lastValidationError`, and is dropped with
`received_chunks`, `received_bytes` and the chunk map untouched and the
channel left open; a subsequent frame with a matching CRC is ingested
and advances both counters. -/
theorem crc_mismatch_drops_frame :
    ∀ (s : ReceiveState) (buf : List Nat) (t : ReceiveState) (buf2 : List Nat),
      s.fileInfo.isSome = true → 4 ≤ buf.length →
      leU32Header buf ≠ calculateCRC32 (buf.drop 4) →
      t.fileInfo.isSome = true → 4 ≤ buf2.length →
      leU32Header buf2 = calculateCRC32 (buf2.drop 4) →
      (handleChunkData s buf).errorShown =
          some (integrityErrorMessage (calculateCRC32 (buf.drop 4)) (leU32Header buf)) ∧
      (handleChunkData s buf).state.lastValidationError =
          some (integrityErrorMessage (calculateCRC32 (buf.drop 4)) (leU32Header buf)) ∧
      (handleChunkData s buf).state.receivedChunks = s.receivedChunks ∧
      (handleChunkData s buf).state.receivedSize = s.receivedSize ∧
      (handleChunkData s buf).state.chunks = s.chunks ∧
      (handleChunkData s buf).completionFired = false ∧
      (handleChunkData s buf).closedChannel = false ∧
      (handleChunkData t buf2).state.receivedChunks = t.receivedChunks + 1 ∧
      (handleChunkData t buf2).state.receivedSize = t.receivedSize + (buf2.length - 4) ∧
      (handleChunkData t buf2).errorShown = none := by
  intro s buf t buf2 h1 h2 h3 h4 h5 h6
  have hmm := handleChunkData_mismatch s buf h1 h2 h3
  have hgd := handleChunkData_good t buf2 h4 h5 h6
  rw [hmm]
  exact ⟨rfl, rfl, rfl, rfl, rfl, rfl, rfl, hgd.1, hgd.2.1, hgd.2.2.2.1⟩

/-- C2 (witness): a concrete 4-byte frame with header 1 over an empty
payload (whose CRC32 is 0) is rejected and leaves the counters at 0,
and a concrete valid frame for payload `[5]` is then ingested. -/
theorem crc_mismatch_drops_frame_witness :
    (handleChunkData c2State c2BadFrame).errorShown =
        some (integrityErrorMessage (calculateCRC32 (c2BadFrame.drop 4)) (leU32Header c2BadFrame)) ∧
    (handleChunkData c2State c2BadFrame).state.lastValidationError =
        some (integrityErrorMessage (calculateCRC32 (c2BadFrame.drop 4)) (leU32Header c2BadFrame)) ∧
    (handleChunkData c2State c2BadFrame).state.receivedChunks = c2State.receivedChunks ∧
    (handleChunkData c2State c2BadFrame).state.receivedSize = c2State.receivedSize ∧
    (handleChunkData c2State c2BadFrame).state.chunks = c2State.chunks ∧
    (handleChunkData c2State c2BadFrame).completionFired = false ∧
    (handleChunkData c2State c2BadFrame).closedChannel = false ∧
    (handleChunkData c2State c2GoodFrame).state.receivedChunks = c2State.receivedChunks + 1 ∧
    (handleChunkData c2State c2GoodFrame).state.receivedSize =
        c2State.receivedSize + (c2GoodFrame.length - 4) ∧
    (handleChunkData c2State c2GoodFrame).errorShown = none :=
  crc_mismatch_drops_frame c2State c2BadFrame c2State c2GoodFrame
    (by decide) (by decide) (by decide) (by decide) (by decide) (by decide)

/-- C9 (counterexample): the receiver's length guard is `< 4`, not
`< 5`.  The 4-byte frame `[0,0,0,0]` — a CRC header of 0 over an empty
payload, whose CRC32 is 0 — is ingested and advances the chunk counter,
so it is not true that every frame shorter than 5 bytes leaves the
receive state unchanged. -/
theorem short_frame_counterexample :
    c9ShortFrame.length < 5 ∧
    (handleChunkData c9State c9ShortFrame).state.receivedChunks = 1 ∧
    (handleChunkData c9State c9ShortFrame).state ≠ c9State := by decide

/-- C9 (amended): a binary frame is ingested only when metadata has been
received and the frame is at least 4 bytes long (the CRC header; the
payload may be empty); any shorter frame, and any frame before
metadata, is ignored and leaves the entire receive state unchanged. -/
theorem frame_min_length_guard :
    ∀ (s : ReceiveState) (buf : List Nat),
      s.fileInfo = none ∨ buf.length < 4 →
      handleChunkData s buf = ⟨s, none, false, false⟩ :=
  fun s buf h => handleChunkData_guard s buf h

/-- C9 (amended, witness): a 3-byte frame is dropped with no effect. -/
theorem frame_min_length_guard_witness :
    handleChunkData emptyReceiveState [1, 2, 3] = ⟨emptyReceiveState, none, false, false⟩ :=
  frame_min_length_guard emptyReceiveState [1, 2, 3] (Or.inr (by decide))

/-- C10: on the in-memory receive path, after any sequence of frames the
key set of the chunk map is exactly `{0, ..., received_chunks - 1}`
(each accepted chunk is stored under the current counter before the
increment; rejected frames change nothing), so the completion assembly
loop, which reads keys `0 .. received_chunks - 1` in ascending order,
finds every chunk and never reports a missing chunk. -/
theorem inMemory_chunk_map_complete :
    ∀ (maxInMemory : Nat) (picker : Bool) (meta : FileMetadata) (frames : List (List Nat)),
      meta.size ≤ maxInMemory →
      chunkKeys (ingestState (initializeReceiver maxInMemory picker emptyReceiveState meta) frames) =
        List.range (ingestState (initializeReceiver maxInMemory picker emptyReceiveState meta) frames).receivedChunks ∧
      (collectChunks
          (ingestState (initializeReceiver maxInMemory picker emptyReceiveState meta) frames).chunks
          (ingestState (initializeReceiver maxInMemory picker emptyReceiveState meta) frames).receivedChunks).toOption.isSome
        = true := by
  intro maxInMemory picker meta frames h
  have hno : ¬ meta.size > maxInMemory := by omega
  have h1 : (initializeReceiver maxInMemory picker emptyReceiveState meta).useStreaming = false := by
    simp [initializeReceiver, hno]
  have h2 : chunkKeys (initializeReceiver maxInMemory picker emptyReceiveState meta) =
      List.range (initializeReceiver maxInMemory picker emptyReceiveState meta).receivedChunks := by
    simp [initializeReceiver, hno, chunkKeys]
  have hinv := ingest_inv frames _ h1 h2
  refine ⟨hinv.2, ?_⟩
  apply collectChunks_ok
  intro i hi
  apply lookup_isSome_of_mem_keys
  have hmem : i ∈ chunkKeys (ingestState (initializeReceiver maxInMemory picker emptyReceiveState meta) frames) := by
    rw [hinv.2]
    exact List.mem_range.mpr hi
  simpa [chunkKeys] using hmem

/-- C10 (witness): a one-chunk transfer satisfies the invariant and the
assembly loop succeeds. -/
theorem inMemory_chunk_map_complete_witness :
    chunkKeys (ingestState (initializeReceiver 209715200 false emptyReceiveState c10Meta) [c10Frame]) =
      List.range (ingestState (initializeReceiver 209715200 false emptyReceiveState c10Meta) [c10Frame]).receivedChunks ∧
    (collectChunks
        (ingestState (initializeReceiver 209715200 false emptyReceiveState c10Meta) [c10Frame]).chunks
        (ingestState (initializeReceiver 209715200 false emptyReceiveState c10Meta) [c10Frame]).receivedChunks).toOption.isSome
      = true :=
  inMemory_chunk_map_complete 209715200 false c10Meta [c10Frame] (by decide)

/-! ## Helper lemmas about the send pipeline -/

/-- Every send the loop performs happens at an observed `bufferedAmount`
at most `highWater`, with a framed chunk no longer than the configured
chunk size plus the 4-byte CRC header. -/
lemma sendLoop_events (fileSize chunkSize highWater : Nat) :
    ∀ (env : List EnvStep) (st : SendSt),
      ∀ ev ∈ (continueSendLoop fileSize chunkSize highWater st env).2,
        ev.preBuffered ≤ highWater ∧ ev.framedLen ≤ chunkSize + 4 := by
  intro env
  induction env with
  | nil => intro st ev hev; simp [continueSendLoop] at hev
  | cons e rest ih =>
    intro st ev hev
    simp only [continueSendLoop] at hev
    by_cases h1 : st.offset < fileSize
    · rw [if_pos h1] at hev
      by_cases h2 : highWater < st.buffered - e.drainTop
      · rw [if_pos h2] at hev
        simp at hev
      · rw [if_neg h2] at hev
        by_cases h3 : e.channelOpen = false
        · rw [if_pos h3] at hev
          simp at hev
        · rw [if_neg h3] at hev
          by_cases h4 : st.batchSize ≤ st.chunksSentThisBatch + 1
          · rw [if_pos h4] at hev
            simp only [List.mem_cons] at hev
            rcases hev with hev | hev
            · subst hev
              dsimp only
              constructor <;> omega
            · exact ih _ ev hev
          · rw [if_neg h4] at hev
            simp only [List.mem_cons] at hev
            rcases hev with hev | hev
            · subst hev
              dsimp only
              constructor <;> omega
            · exact ih _ ev hev
    · rw [if_neg h1] at hev
      simp at hev

/-- Bounds preservation of the adaptive tuning rules. -/
lemma adaptBatch_bounds (t buf b y : Nat) (hb1 : 1 ≤ b) (hb2 : b ≤ 20)
    (hy1 : 10 ≤ y) (hy2 : y ≤ 200) :
    1 ≤ (adaptBatch t buf b y).1 ∧ (adaptBatch t buf b y).1 ≤ 20 ∧
    10 ≤ (adaptBatch t buf b y).2 ∧ (adaptBatch t buf b y).2 ≤ 200 := by
  unfold adaptBatch
  split
  · split <;> refine ⟨?_, ?_, ?_, ?_⟩ <;> simp <;> omega
  · split
    · split <;> refine ⟨?_, ?_, ?_, ?_⟩ <;> simp <;> omega
    · refine ⟨?_, ?_, ?_, ?_⟩ <;> simp <;> omega

/-- The send loop keeps the batch size in `[1, 20]` and the yield
interval in `[10, 200]`. -/
lemma sendLoop_bounds (fileSize chunkSize highWater : Nat) :
    ∀ (env : List EnvStep) (st : SendSt),
      1 ≤ st.batchSize → st.batchSize ≤ 20 →
      10 ≤ st.yieldTimeMs → st.yieldTimeMs ≤ 200 →
      1 ≤ (continueSendLoop fileSize chunkSize highWater st env).1.batchSize ∧
      (continueSendLoop fileSize chunkSize highWater st env).1.batchSize ≤ 20 ∧
      10 ≤ (continueSendLoop fileSize chunkSize highWater st env).1.yieldTimeMs ∧
      (continueSendLoop fileSize chunkSize highWater st env).1.yieldTimeMs ≤ 200 := by
  intro env
  induction env with
  | nil => intro st h1 h2 h3 h4; exact ⟨h1, h2, h3, h4⟩
  | cons e rest ih =>
    intro st h1 h2 h3 h4
    simp only [continueSendLoop]
    by_cases ho : st.offset < fileSize
    · rw [if_pos ho]
      by_cases hp : highWater < st.buffered - e.drainTop
      · rw [if_pos hp]
        exact ⟨h1, h2, h3, h4⟩
      · rw [if_neg hp]
        by_cases hc : e.channelOpen = false
        · rw [if_pos hc]
          exact ⟨h1, h2, h3, h4⟩
        · rw [if_neg hc]
          by_cases hb : st.batchSize ≤ st.chunksSentThisBatch + 1
          · rw [if_pos hb]
            have hada := adaptBatch_bounds (targetBufferOf highWater)
              (st.buffered - e.drainTop + (min (st.offset + chunkSize) fileSize - st.offset + 4)
                - e.drainBatch)
              st.batchSize st.yieldTimeMs h1 h2 h3 h4
            exact ih _ hada.1 hada.2.1 hada.2.2.1 hada.2.2.2
          · rw [if_neg hb]
            exact ih _ h1 h2 h3 h4
    · rw [if_neg ho]
      exact ⟨h1, h2, h3, h4⟩

/-! ## Claim theorems: send pipeline -/

/-- C3: whenever the send loop observes `bufferedAmount > HIGH_WATER` at
the top of an iteration it sets `paused` and returns at once, sending
nothing and consuming no further schedule; every send happens at an
observed `bufferedAmount ≤ HIGH_WATER`, so the buffer right after a send
never exceeds `HIGH_WATER` plus one framed chunk; and the
`bufferedamountlow` handler re-enters the loop, clearing `paused`, iff
`paused && file && offset < size`. -/
theorem backpressure_pause_and_resume :
    (∀ (fileSize chunkSize highWater : Nat) (st : SendSt) (e : EnvStep) (env : List EnvStep),
      st.offset < fileSize → highWater < st.buffered - e.drainTop →
      continueSendLoop fileSize chunkSize highWater st (e :: env) =
        ({ st with buffered := st.buffered - e.drainTop, paused := true }, [])) ∧
    (∀ (fileSize chunkSize highWater : Nat) (st : SendSt) (env : List EnvStep),
      ∀ ev ∈ (continueSendLoop fileSize chunkSize highWater st env).2,
        ev.preBuffered ≤ highWater ∧ ev.framedLen ≤ chunkSize + 4 ∧
        ev.preBuffered + ev.framedLen ≤ highWater + (chunkSize + 4)) ∧
    (∀ (hasFile : Bool) (fileSize : Nat) (st : SendSt),
      (onBufferedAmountLow hasFile fileSize st).isSome = true ↔
        (st.paused = true ∧ hasFile = true ∧ st.offset < fileSize)) ∧
    (∀ (hasFile : Bool) (fileSize : Nat) (st st2 : SendSt),
      onBufferedAmountLow hasFile fileSize st = some st2 →
      st2 = { st with paused := false }) := by
  refine ⟨?_, ?_, ?_, ?_⟩
  · intro fileSize chunkSize highWater st e env h1 h2
    simp [continueSendLoop, h1, h2]
  · intro fileSize chunkSize highWater st env ev hev
    have h := sendLoop_events fileSize chunkSize highWater env st ev hev
    exact ⟨h.1, h.2, by omega⟩
  · intro hasFile fileSize st
    simp only [onBufferedAmountLow]
    split
    next hcond => simp_all
    next hcond => simp_all
  · intro hasFile fileSize st st2 h
    unfold onBufferedAmountLow at h
    split at h
    · exact (Option.some_inj.mp h).symm
    · simp at h

/-- C3 (witness): a concrete over-full buffer pauses at once, and the
handler resumes a concrete paused mid-file state. -/
theorem backpressure_pause_and_resume_witness :
    continueSendLoop 10 4 5 ⟨0, 100, false, 1, 50, 0⟩ [⟨0, true, 0⟩] =
      (⟨0, 100, true, 1, 50, 0⟩, []) ∧
    (onBufferedAmountLow true 10 ⟨0, 0, true, 1, 50, 0⟩).isSome = true ∧
    onBufferedAmountLow true 10 ⟨0, 0, true, 1, 50, 0⟩ = some ⟨0, 0, false, 1, 50, 0⟩ := by
  refine ⟨?_, ?_, ?_⟩
  · exact backpressure_pause_and_resume.1 10 4 5 ⟨0, 100, false, 1, 50, 0⟩ ⟨0, true, 0⟩ []
      (by decide) (by decide)
  · exact (backpressure_pause_and_resume.2.2.1 true 10 ⟨0, 0, true, 1, 50, 0⟩).mpr
      ⟨rfl, rfl, by decide⟩
  · have h := (backpressure_pause_and_resume.2.2.1 true 10 ⟨0, 0, true, 1, 50, 0⟩).mpr
      ⟨rfl, rfl, by decide⟩
    obtain ⟨st2, hst2⟩ := Option.isSome_iff_exists.mp h
    rw [hst2, backpressure_pause_and_resume.2.2.2 true 10 _ st2 hst2]

/-- C8: `TARGET_BUFFER = max(131072, HIGH_WATER/2)`; at each batch
boundary the tuning is exactly: speed up (`batch+2` capped at 20, yield
`-5` floored at 10) when `bufferedAmount < floor(TARGET_BUFFER/4)` and
`batch < 20`, slow down (`floor(batch*0.7)` floored at 1, yield `+20`
capped at 200) when `bufferedAmount > TARGET_BUFFER` and `batch > 1`,
else unchanged; and from the initial values `batch = 1`, `yield = 50`
the loop keeps `batch ∈ [1,20]` and `yield ∈ [10,200]` forever. -/
theorem adaptive_batch_tuning :
    (∀ highWater : Nat, targetBufferOf highWater = max 131072 (highWater / 2)) ∧
    (∀ (t buf b y : Nat),
      adaptBatch t buf b y =
        if buf < t / 4 ∧ b < 20 then (min 20 (b + 2), max 10 (y - 5))
        else if t < buf ∧ 1 < b then (max 1 (b * 7 / 10), min 200 (y + 20))
        else (b, y)) ∧
    (∀ (t buf b y : Nat), 1 ≤ b → b ≤ 20 → 10 ≤ y → y ≤ 200 →
      1 ≤ (adaptBatch t buf b y).1 ∧ (adaptBatch t buf b y).1 ≤ 20 ∧
      10 ≤ (adaptBatch t buf b y).2 ∧ (adaptBatch t buf b y).2 ≤ 200) ∧
    (1 ≤ initialBatchSize ∧ initialBatchSize ≤ 20 ∧
      10 ≤ initialYieldTimeMs ∧ initialYieldTimeMs ≤ 200) ∧
    (∀ (fileSize chunkSize highWater : Nat) (env : List EnvStep) (st : SendSt),
      1 ≤ st.batchSize → st.batchSize ≤ 20 →
      10 ≤ st.yieldTimeMs → st.yieldTimeMs ≤ 200 →
      1 ≤ (continueSendLoop fileSize chunkSize highWater st env).1.batchSize ∧
      (continueSendLoop fileSize chunkSize highWater st env).1.batchSize ≤ 20 ∧
      10 ≤ (continueSendLoop fileSize chunkSize highWater st env).1.yieldTimeMs ∧
      (continueSendLoop fileSize chunkSize highWater st env).1.yieldTimeMs ≤ 200) := by
  refine ⟨fun _ => rfl, ?_, ?_, by decide, ?_⟩
  · intro t buf b y
    by_cases c1 : buf < t / 4
    · by_cases c2 : b < 20
      · simp [adaptBatch, c1, c2]
      · have c3 : ¬ t < buf := by omega
        simp [adaptBatch, c1, c2, c3]
    · by_cases c3 : t < buf
      · by_cases c4 : 1 < b
        · simp [adaptBatch, c1, c3, c4]
        · simp [adaptBatch, c1, c3, c4]
      · simp [adaptBatch, c1, c3]
  · intro t buf b y hb1 hb2 hy1 hy2
    exact adaptBatch_bounds t buf b y hb1 hb2 hy1 hy2
  · intro fileSize chunkSize highWater env st h1 h2 h3 h4
    exact sendLoop_bounds fileSize chunkSize highWater env st h1 h2 h3 h4

/-- C8 (witness): concrete instances of the bounds conjuncts. -/
theorem adaptive_batch_tuning_witness :
    (1 ≤ (adaptBatch 524288 0 1 50).1 ∧ (adaptBatch 524288 0 1 50).1 ≤ 20 ∧
      10 ≤ (adaptBatch 524288 0 1 50).2 ∧ (adaptBatch 524288 0 1 50).2 ≤ 200) ∧
    (1 ≤ (continueSendLoop 8 4 1048576 ⟨0, 0, false, 1, 50, 0⟩ [⟨0, true, 0⟩]).1.batchSize ∧
      (continueSendLoop 8 4 1048576 ⟨0, 0, false, 1, 50, 0⟩ [⟨0, true, 0⟩]).1.batchSize ≤ 20 ∧
      10 ≤ (continueSendLoop 8 4 1048576 ⟨0, 0, false, 1, 50, 0⟩ [⟨0, true, 0⟩]).1.yieldTimeMs ∧
      (continueSendLoop 8 4 1048576 ⟨0, 0, false, 1, 50, 0⟩ [⟨0, true, 0⟩]).1.yieldTimeMs ≤ 200) :=
  ⟨adaptive_batch_tuning.2.2.1 524288 0 1 50 (by decide) (by decide) (by decide) (by decide),
   adaptive_batch_tuning.2.2.2.2 8 4 1048576 [⟨0, true, 0⟩] ⟨0, 0, false, 1, 50, 0⟩
     (by decide) (by decide) (by decide) (by decide)⟩

/-! ## Helper lemmas about the signaling server -/

/-- The relay never changes room membership. -/
lemma relayHandler_rooms (cfg : ServerConfig) (s : ServerState) (sender : PeerId)
    (kind : SignalKind) (data : SignalData) (now : Nat) :
    (relayHandler cfg s sender kind data now).1.rooms = s.rooms := by
  unfold relayHandler
  dsimp only
  repeat' split
  all_goals rfl

/-- `windowAccepted` is zero once the window's count has reached the
cap: every further event inside the window is rejected. -/
lemma windowAccepted_of_ge (ts : List Nat) :
    ∀ e : RateEntry, RATE_LIMIT_MAX ≤ e.count → windowAccepted e ts = 0 := by
  induction ts with
  | nil => intro e _; rfl
  | cons t ts ih =>
    intro e h
    unfold windowAccepted
    by_cases hw : e.resetTime < t
    · rw [if_pos hw]
    · rw [if_neg hw]
      have hstep : rlStep (some e) t = (false, e) := by
        simp [rlStep, hw, h]
      rw [hstep]
      simp [ih e h]

/-- Inside one limiter window, the number of accepted events plus the
current count never exceeds the cap. -/
lemma windowAccepted_add_le (ts : List Nat) :
    ∀ e : RateEntry, 1 ≤ e.count → e.count ≤ RATE_LIMIT_MAX →
      windowAccepted e ts + e.count ≤ RATE_LIMIT_MAX := by
  induction ts with
  | nil => intro e _ h2; simpa [windowAccepted] using h2
  | cons t ts ih =>
    intro e h1 h2
    unfold windowAccepted
    by_cases hw : e.resetTime < t
    · rw [if_pos hw]; omega
    · rw [if_neg hw]
      by_cases hm : RATE_LIMIT_MAX ≤ e.count
      · have hstep : rlStep (some e) t = (false, e) := by
          simp [rlStep, hw, hm]
        rw [hstep]
        simp only [if_false, Bool.false_eq_true]
        have h0 := windowAccepted_of_ge ts e hm
        omega
      · have hstep : rlStep (some e) t = (true, ⟨e.count + 1, e.resetTime⟩) := by
          simp [rlStep, hw, hm]
        rw [hstep]
        simp only [if_true]
        have hrec := ih ⟨e.count + 1, e.resetTime⟩ (by dsimp only; omega) (by dsimp only; omega)
        dsimp only at hrec
        omega

/-- The bound property preserved by a first-match association update. -/
lemma updateRoom_bounded (P : Room → Prop) :
    ∀ (m : List (RoomId × Room)) (roomId : RoomId) (f : Room → Room),
      (∀ x ∈ m, P x.2) →
      (∀ r : Room, List.lookup roomId m = some r → P (f r)) →
      ∀ x ∈ updateRoom m roomId f, P x.2 := by
  intro m
  induction m with
  | nil => intro roomId f _ _ x hx; simp [updateRoom] at hx
  | cons e rest ih =>
    intro roomId f hall hf x hx
    unfold updateRoom at hx
    by_cases he : (e.1 == roomId) = true
    · rw [if_pos he] at hx
      rcases List.mem_cons.mp hx with hx | hx
      · subst hx
        apply hf
        have : (roomId == e.1) = true := by
          rw [beq_iff_eq] at he ⊢
          exact he.symm
        simp [List.lookup, this]
      · exact hall x (List.mem_cons_of_mem _ hx)
    · rw [if_neg he] at hx
      rcases List.mem_cons.mp hx with hx | hx
      · subst hx
        exact hall x (List.mem_cons_self _ _)
      · refine ih roomId f (fun y hy => hall y (List.mem_cons_of_mem _ hy)) ?_ x hx
        intro r hr
        apply hf
        have hne : (roomId == e.1) = false := by
          rw [beq_eq_false_iff_ne]
          intro hh
          exact he (by rw [beq_iff_eq]; exact hh.symm)
        simp [List.lookup, hne, hr]

/-- `addPeer` grows the peer set by at most one. -/
lemma addPeer_length_le (r : Room) (p : PeerId) :
    (addPeer r p).peers.length ≤ r.peers.length + 1 := by
  unfold addPeer
  split
  · omega
  · simp

/-- The relay either answers the sender with a single `app-error`, or
relays to the other members of a validated room the sender belongs to. -/
lemma relayHandler_out (cfg : ServerConfig) (s : ServerState) (sender : PeerId)
    (kind : SignalKind) (data : SignalData) (now : Nat) :
    (∃ msg, (relayHandler cfg s sender kind data now).2 = [Emit.appError sender msg]) ∨
    (∃ roomId, extractRoomId data.roomIdField = some roomId ∧
      isValidRoomId roomId = true ∧ inRoom s sender roomId = true ∧
      (relayHandler cfg s sender kind data now).2 =
        ((roomPeers s roomId).filter (fun p => p ≠ sender)).map
          (fun p => Emit.signal p kind data sender)) := by
  unfold relayHandler
  dsimp only
  repeat' split
  all_goals simp only [Bool.not_eq_true', Bool.not_eq_false', Bool.not_eq_true,
    Bool.not_eq_false] at *
  all_goals first
    | exact Or.inl ⟨_, rfl⟩
    | exact Or.inr ⟨_, by assumption, by assumption, by assumption, rfl⟩

/-! ## Claim theorems: signaling server -/

/-- C4: on every `offer`/`answer`/`candidate` event, the payload-size
guard runs first, then (for `candidate` only) the per-peer rate limit,
then the membership check; the envelope is forwarded, augmented with
`from = sender`, exactly to the other members of the named room; a
sender not in the room gets a single app-error with nothing forwarded;
and no signal envelope is ever delivered to a peer outside the
envelope's room. -/
theorem signal_relay_guarded :
    ∀ (cfg : ServerConfig) (s : ServerState) (sender : PeerId) (kind : SignalKind)
      (data : SignalData) (now : Nat),
      (∀ (target : PeerId) (k : SignalKind) (d : SignalData) (f : PeerId),
        Emit.signal target k d f ∈ (relayHandler cfg s sender kind data now).2 →
        ∃ roomId, extractRoomId data.roomIdField = some roomId ∧
          target ∈ roomPeers s roomId ∧ target ≠ sender ∧ f = sender ∧ d = data ∧ k = kind) ∧
      (isPayloadValid cfg data = false →
        relayHandler cfg s sender kind data now =
          (s, [Emit.appError sender "Payload too large"])) ∧
      ((kind = SignalKind.offer ∨ kind = SignalKind.answer) →
        (relayHandler cfg s sender kind data now).1.rateLimits = s.rateLimits) ∧
      (isPayloadValid cfg data = true → kind = SignalKind.candidate →
        (checkRateLimit s.rateLimits sender now).1 = false →
        relayHandler cfg s sender kind data now =
          (s, [Emit.appError sender "Too many requests"])) ∧
      (∀ roomId : RoomId, isPayloadValid cfg data = true →
        (kind = SignalKind.candidate → (checkRateLimit s.rateLimits sender now).1 = true) →
        extractRoomId data.roomIdField = some roomId →
        isValidRoomId roomId = true →
        inRoom s sender roomId = false →
        (relayHandler cfg s sender kind data now).2 =
          [Emit.appError sender "Not a member of this room"]) ∧
      (∀ roomId : RoomId, isPayloadValid cfg data = true →
        (kind = SignalKind.candidate → (checkRateLimit s.rateLimits sender now).1 = true) →
        extractRoomId data.roomIdField = some roomId →
        isValidRoomId roomId = true →
        inRoom s sender roomId = true →
        (relayHandler cfg s sender kind data now).2 =
          ((roomPeers s roomId).filter (fun p => p ≠ sender)).map
            (fun p => Emit.signal p kind data sender)) ∧
      (relayHandler cfg s sender kind data now).1.rooms = s.rooms := by
  intro cfg s sender kind data now
  refine ⟨?_, ?_, ?_, ?_, ?_, ?_, relayHandler_rooms cfg s sender kind data now⟩
  · intro target k d f hmem
    rcases relayHandler_out cfg s sender kind data now with ⟨msg, hout⟩ | ⟨roomId, hroom, hvalid, hmemb, hout⟩
    · rw [hout] at hmem
      simp at hmem
    · rw [hout] at hmem
      obtain ⟨p, hpfilter, heq⟩ := List.mem_map.mp hmem
      have hp := List.mem_filter.mp hpfilter
      cases heq
      exact ⟨roomId, hroom, hp.1, by simpa using hp.2, rfl, rfl, rfl⟩
  · intro h
    simp [relayHandler, h]
  · intro h
    rcases h with h | h <;>
      (subst h
       unfold relayHandler
       dsimp only
       repeat' split
       all_goals first
         | rfl
         | (exfalso; simp_all))
  · intro hpv hk hrate
    subst hk
    simp [relayHandler, hpv, hrate]
  · intro roomId hpv hrate hroom hvalid hmemb
    have hmemb' : sender ∉ roomPeers s roomId := by simpa [inRoom] using hmemb
    unfold roomPeers at hmemb'
    cases kind with
    | offer => simp [relayHandler, hpv, hroom, hvalid, hmemb', inRoom, roomPeers]
    | answer => simp [relayHandler, hpv, hroom, hvalid, hmemb', inRoom, roomPeers]
    | candidate => simp [relayHandler, hpv, hrate rfl, hroom, hvalid, hmemb', inRoom, roomPeers]
  · intro roomId hpv hrate hroom hvalid hmemb
    have hmemb' : sender ∈ roomPeers s roomId := by simpa [inRoom] using hmemb
    unfold roomPeers at hmemb'
    cases kind with
    | offer => simp [relayHandler, hpv, hroom, hvalid, hmemb', inRoom, roomPeers]
    | answer => simp [relayHandler, hpv, hroom, hvalid, hmemb', inRoom, roomPeers]
    | candidate => simp [relayHandler, hpv, hrate rfl, hroom, hvalid, hmemb', inRoom, roomPeers]

/-- C4 (witness): in a two-member room, a candidate from a non-member is
answered with a single app-error and nothing is forwarded, while a
member's candidate is forwarded, with `from` set, to the other member
only. -/
theorem signal_relay_guarded_witness :
    (relayHandler defaultServerConfig c5State "mallory" SignalKind.candidate c4Data 0).2 =
      [Emit.appError "mallory" "Not a member of this room"] ∧
    (relayHandler defaultServerConfig c5State "alice" SignalKind.candidate c4Data 0).2 =
      ((roomPeers c5State "room1").filter (fun p => p ≠ "alice")).map
        (fun p => Emit.signal p SignalKind.candidate c4Data "alice") :=
  ⟨(signal_relay_guarded defaultServerConfig c5State "mallory" SignalKind.candidate c4Data 0).2.2.2.2.1
      "room1" (by decide) (fun _ => by decide) (by decide) (by decide) (by decide),
   (signal_relay_guarded defaultServerConfig c5State "alice" SignalKind.candidate c4Data 0).2.2.2.2.2.1
      "room1" (by decide) (fun _ => by decide) (by decide) (by decide) (by decide)⟩

/-- C5: every server operation preserves `|peers(r)| ≤ MAX_PEERS_PER_ROOM`;
`join-room` on a full room answers "Room is full" and leaves membership
unchanged; `peer-accepted` on a full room answers "Room is full" to both
the pending peer and the approving member and leaves membership and the
pending set unchanged. -/
theorem room_capacity_invariant :
    ∀ (cfg : ServerConfig) (s : ServerState) (op : ServerOp),
      1 ≤ cfg.maxPeersPerRoom → roomsBounded cfg s →
      roomsBounded cfg (serverStep cfg s op).1 ∧
      (∀ (sender : PeerId) (roomId : String) (now : Nat) (room : Room),
        op = ServerOp.joinRoom sender roomId now →
        (checkRateLimit s.rateLimits sender now).1 = true →
        isValidRoomId roomId = true →
        List.lookup roomId s.rooms = some room →
        cfg.maxPeersPerRoom ≤ room.peers.length →
        serverStep cfg s op =
          ({ s with rateLimits := (checkRateLimit s.rateLimits sender now).2 },
            [Emit.appError sender "Room is full"])) ∧
      (∀ (sender : PeerId) (roomId : String) (peerId : PeerId) (now : Nat) (room : Room),
        op = ServerOp.peerAccepted sender roomId peerId now →
        (checkRateLimit s.rateLimits sender now).1 = true →
        isValidRoomId roomId = true →
        inRoom s sender roomId = true →
        List.lookup roomId s.rooms = some room →
        List.lookup peerId s.pending = some roomId →
        s.connected.contains peerId = true →
        cfg.maxPeersPerRoom ≤ room.peers.length →
        serverStep cfg s op =
          ({ s with rateLimits := (checkRateLimit s.rateLimits sender now).2 },
            [Emit.appError peerId "Room is full", Emit.appError sender "Room is full"])) := by
  intro cfg s op hmax hbnd
  refine ⟨?_, ?_, ?_⟩
  · cases op with
    | connect p => exact hbnd
    | createRoom sender roomId now =>
      unfold serverStep createRoomHandler
      dsimp only
      split
      · exact hbnd
      · split
        · exact hbnd
        · split
          · exact hbnd
          · intro e he
            rcases List.mem_append.mp he with he | he
            · exact hbnd e he
            · simp only [List.mem_singleton] at he
              subst he
              simpa using hmax
    | joinRoom sender roomId now =>
      unfold serverStep joinRoomHandler
      dsimp only
      split
      · exact hbnd
      · split
        · exact hbnd
        · split
          · exact hbnd
          · split
            · exact hbnd
            · rename_i roomInfo hlook hfull
              intro e he
              refine updateRoom_bounded (fun r => r.peers.length ≤ cfg.maxPeersPerRoom)
                s.rooms roomId (fun r => addPeer r sender)
                (fun x hx => hbnd x hx) ?_ e he
              intro r hr
              rw [hlook] at hr
              have hrr : r = roomInfo := (Option.some_inj.mp hr).symm
              subst hrr
              have h1 := addPeer_length_le r sender
              dsimp only
              omega
    | requestJoin sender roomId now =>
      unfold serverStep requestJoinHandler
      dsimp only
      repeat' split
      all_goals exact hbnd
    | peerAccepted sender roomId peerId now =>
      unfold serverStep peerAcceptedHandler
      dsimp only
      split
      · exact hbnd
      · split
        · exact hbnd
        · split
          · exact hbnd
          · split
            · exact hbnd
            · split
              · exact hbnd
              · split
                · exact hbnd
                · split
                  · exact hbnd
                  · rename_i roomInfo hlook hpend hconn hfull
                    intro e he
                    refine updateRoom_bounded (fun r => r.peers.length ≤ cfg.maxPeersPerRoom)
                      s.rooms roomId (fun r => addPeer r peerId)
                      (fun x hx => hbnd x hx) ?_ e he
                    intro r hr
                    rw [hlook] at hr
                    have hrr : r = roomInfo := (Option.some_inj.mp hr).symm
                    subst hrr
                    have h1 := addPeer_length_le r peerId
                    dsimp only
                    omega
    | peerRejected sender roomId peerId now =>
      unfold serverStep peerRejectedHandler
      dsimp only
      repeat' split
      all_goals exact hbnd
    | signalEvent sender kind data now =>
      intro e he
      rw [show (serverStep cfg s (ServerOp.signalEvent sender kind data now)).1.rooms = s.rooms
        from relayHandler_rooms cfg s sender kind data now] at he
      exact hbnd e he
    | disconnect p =>
      intro e he
      have he1 := (List.mem_filter.mp he).1
      obtain ⟨x, hx, hex⟩ := List.mem_map.mp he1
      have hb := hbnd x hx
      have hle : (removePeer x.2 p).peers.length ≤ x.2.peers.length := by
        unfold removePeer
        simpa using List.length_filter_le _ _
      rw [← hex]
      dsimp only
      omega
    | sweep now =>
      intro e he
      exact hbnd e (List.mem_filter.mp he).1
  · intro sender roomId now room hop hrate hvalid hlook hfull
    subst hop
    simp [serverStep, joinRoomHandler, hrate, hvalid, hlook, hfull]
  · intro sender roomId peerId now room hop hrate hvalid hinroom hlook hpending hconn hfull
    subst hop
    have hmem : sender ∈ room.peers := by
      have hh := hinroom
      unfold inRoom roomPeers at hh
      rw [hlook] at hh
      simpa using hh
    have hconn' : peerId ∈ s.connected := by simpa using hconn
    simp [serverStep, peerAcceptedHandler, hrate, hvalid, hmem, hlook, hpending, hconn',
      hfull, inRoom, roomPeers]

/-- C5 (witness): joining the concrete full room `room1` (two members,
default cap 2) is refused with "Room is full" and changes no
membership. -/
theorem room_capacity_invariant_witness :
    roomsBounded defaultServerConfig
      (serverStep defaultServerConfig c5State (ServerOp.joinRoom "dave" "room1" 0)).1 ∧
    serverStep defaultServerConfig c5State (ServerOp.joinRoom "dave" "room1" 0) =
      ({ c5State with rateLimits := (checkRateLimit c5State.rateLimits "dave" 0).2 },
        [Emit.appError "dave" "Room is full"]) := by
  have h := room_capacity_invariant defaultServerConfig c5State
    (ServerOp.joinRoom "dave" "room1" 0) (by decide) (by unfold roomsBounded; decide)
  exact ⟨h.1, h.2.1 "dave" "room1" 0 c5Room rfl (by decide) (by decide) (by decide) (by decide)⟩

/-- C7 (counterexample): the fixed-window limiter admits 19 events inside
the real-time second `[601, 1601)`: ten in the window opened at t=0
(one at t=0, nine at 601..609) minus the one outside, plus ten in the
window opened at t=1001. -/
theorem rate_limit_sliding_window_counterexample :
    acceptedIn 601 (rlRun none c7Times) = 19 ∧
    RATE_LIMIT_MAX < acceptedIn 601 (rlRun none c7Times) := by decide

/-- C7 (amended): the limiter enforces its cap per limiter window, not
per arbitrary real-time second: an event arriving with no state, or past
`window_end`, opens a window with `count = 1` and
`window_end = now + RATE_WINDOW`, and from then until `window_end` at
most `RATE_MAX` events in total (the opening one included) are accepted;
`checkRateLimit` is exactly this per-socket step lifted to the map. -/
theorem rate_limit_window_bound :
    (∀ t0 : Nat, rlStep none t0 = (true, ⟨1, t0 + RATE_LIMIT_WINDOW⟩)) ∧
    (∀ (e : RateEntry) (t0 : Nat), e.resetTime < t0 →
      rlStep (some e) t0 = (true, ⟨1, t0 + RATE_LIMIT_WINDOW⟩)) ∧
    (∀ (t0 : Nat) (ts : List Nat),
      1 + windowAccepted ⟨1, t0 + RATE_LIMIT_WINDOW⟩ ts ≤ RATE_LIMIT_MAX) ∧
    (∀ (limits : List (PeerId × RateEntry)) (p : PeerId) (now : Nat),
      checkRateLimit limits p now =
        ((rlStep (List.lookup p limits) now).1,
          if (rlStep (List.lookup p limits) now).1
          then assocSet limits p (rlStep (List.lookup p limits) now).2 else limits)) := by
  refine ⟨fun t0 => rfl, ?_, ?_, fun limits p now => rfl⟩
  · intro e t0 h
    simp [rlStep, h]
  · intro t0 ts
    have h := windowAccepted_add_le ts ⟨1, t0 + RATE_LIMIT_WINDOW⟩ (by dsimp only; decide)
      (by dsimp only; decide)
    dsimp only at h
    omega

/-- C7 (amended, witness): a window opened at t=501 accepts at most ten
events, and an expired entry resets. -/
theorem rate_limit_window_bound_witness :
    rlStep (some ⟨3, 500⟩) 501 = (true, ⟨1, 501 + RATE_LIMIT_WINDOW⟩) ∧
    1 + windowAccepted ⟨1, 501 + RATE_LIMIT_WINDOW⟩ [600, 700] ≤ RATE_LIMIT_MAX :=
  ⟨rate_limit_window_bound.2.1 ⟨3, 500⟩ 501 (by decide),
   rate_limit_window_bound.2.2.1 501 [600, 700]⟩

/-- C6 (counterexample): with `intentional_close` set, the `failed`
handler returns before scheduling anything, even though the claim's four
conditions (initiator, ever_connected, not transfer_complete, not
restarting_for_peer) all hold. -/
theorem restart_counterexample :
    c6State.isInitiator = true ∧
    c6State.lifecycle.everConnected = true ∧
    c6State.lifecycle.transferComplete = false ∧
    c6State.lifecycle.restartingForPeer = false ∧
    (onConnectionFailed c6State).restart = none := by decide

/-- C6 (amended): if additionally `intentional_close` is false, then on
either a reported `failed` state or a data-channel `close` the
controller schedules a 250 ms restart capturing the current room and
pending file, sets `restarting_for_peer` as the re-entry guard, shows no
error dialog, and the timer body tears down, re-creates the connection
as initiator for the same room and file, and sets the status to
"Waiting for peer...". -/
theorem initiator_auto_restart :
    ∀ c : CtrlState,
      c.isInitiator = true →
      c.lifecycle.everConnected = true →
      c.lifecycle.transferComplete = false →
      c.lifecycle.restartingForPeer = false →
      c.lifecycle.intentionalClose = false →
      onConnectionFailed c =
        ⟨some "Peer disconnected", none, some ⟨250, c.roomId, c.pendingFile⟩,
          { c.lifecycle with restartingForPeer := true }⟩ ∧
      onChannelClose c =
        ⟨some "Connection closed", none, some ⟨250, c.roomId, c.pendingFile⟩,
          { c.lifecycle with restartingForPeer := true }⟩ ∧
      runRestartTimer ⟨250, c.roomId, c.pendingFile⟩ =
        ⟨true, c.roomId, true, c.pendingFile, some "Waiting for peer...", false⟩ ∧
      (onConnectionFailed c).errorShown = none ∧
      (onChannelClose c).errorShown = none := by
  intro c h1 h2 h3 h4 h5
  have hfail : onConnectionFailed c =
      ⟨some "Peer disconnected", none, some ⟨250, c.roomId, c.pendingFile⟩,
        { c.lifecycle with restartingForPeer := true }⟩ := by
    simp [onConnectionFailed, h1, h2, h3, h4, h5]
  have hclose : onChannelClose c =
      ⟨some "Connection closed", none, some ⟨250, c.roomId, c.pendingFile⟩,
        { c.lifecycle with restartingForPeer := true }⟩ := by
    simp [onChannelClose, h1, h2, h3, h4]
  refine ⟨hfail, hclose, rfl, ?_, ?_⟩
  · rw [hfail]
  · rw [hclose]

/-- C6 (amended, witness): the concrete healthy initiator state restarts
on both events. -/
theorem initiator_auto_restart_witness :
    onConnectionFailed c6OkState =
      ⟨some "Peer disconnected", none, some ⟨250, "room1", some "f.bin"⟩,
        ⟨false, false, true, true⟩⟩ ∧
    onChannelClose c6OkState =
      ⟨some "Connection closed", none, some ⟨250, "room1", some "f.bin"⟩,
        ⟨false, false, true, true⟩⟩ ∧
    runRestartTimer ⟨250, "room1", some "f.bin"⟩ =
      ⟨true, "room1", true, some "f.bin", some "Waiting for peer...", false⟩ ∧
    (onConnectionFailed c6OkState).errorShown = none ∧
    (onChannelClose c6OkState).errorShown = none :=
  initiator_auto_restart c6OkState (by decide) (by decide) (by decide) (by decide) (by decide)

end AirShare
